import Mathlib

/-
Verification of the temporal-resolution lookup engine in
pyhamtools/lookuplib.py (class LookupLib).

Shallow embedding conventions:
* Python dicts are association lists (`List (k × v)`) carrying insertion
  order; `alistGet` models `d[k]` / `k in d`, `alistSet` models `d[k] = v`.
* UTC datetimes are modelled as integers (aware datetimes are totally
  ordered; only comparisons matter to the engine).
* Python floats are modelled as rationals (only parsing, storing and sign
  negation occur; no float arithmetic is performed by the code).
* Raised exceptions become `Except PyErr`.
-/

namespace Pyhamtools

/-- Errors raised by lookuplib.py: `NoResult`, `LookupError` (the module's
own class), Python `KeyError` / `TypeError`, and the bare `Exception`
raised when a build finds a category with too few records. -/
inductive PyErr where
  | noResult
  | lookupError
  | keyError
  | typeError
  | exception
  deriving DecidableEq

/-- A lookup record: the Python dict with optional keys used for entities,
callsign exceptions, prefixes, invalid operations and zone exceptions.
A `none` field models the key being absent from the dict
(`const.START in record` tests become `startDate matches some`). -/
structure CsRecord where
  country : Option String := none
  prefixF : Option String := none
  adif : Option Int := none
  cqz : Option Int := none
  ituz : Option Int := none
  continent : Option String := none
  latitude : Option Rat := none
  longitude : Option Rat := none
  deleted : Option Bool := none
  whitelist : Option Bool := none
  wlStart : Option Int := none
  wlEnd : Option Int := none
  startDate : Option Int := none
  endDate : Option Int := none
  deriving DecidableEq

/-- Python dict read: `d[k]` (`none` models a missing key / `KeyError`
site). First match wins; build code keeps keys unique. -/
def alistGet {α β : Type} [DecidableEq α] (l : List (α × β)) (k : α) : Option β :=
  match l with
  | [] => none
  | (a, b) :: rest => if a = k then some b else alistGet rest k

/-- Python dict write `d[k] = v`: overwrite in place when the key exists,
append otherwise (dicts preserve insertion order). -/
def alistSet {α β : Type} [DecidableEq α] (l : List (α × β)) (k : α) (v : β) :
    List (α × β) :=
  match l with
  | [] => [(k, v)]
  | (a, b) :: rest => if a = k then (a, v) :: rest else (a, b) :: alistSet rest k v

/-- `List.dropWhile`, written out structurally so that it computes by
plain reduction. -/
def dropWhileL (p : Char → Bool) : List Char → List Char
  | [] => []
  | c :: cs => if p c then dropWhileL p cs else c :: cs

/-- Python `str.strip()`: remove leading and trailing whitespace
(modelled on the string's character list so it evaluates by reduction;
`String.trim` itself is defined by position-based recursion that does not
reduce definitionally). -/
def pyStrip (s : String) : String :=
  String.mk ((dropWhileL Char.isWhitespace
    (dropWhileL Char.isWhitespace s.data).reverse).reverse)

/-- Python `str.upper()` (ASCII call signs): uppercase every character. -/
def pyUpper (s : String) : String :=
  String.mk (s.data.map Char.toUpper)

/-- The `callsign.strip().upper()` normalization every lookup method
applies to its key argument before dispatching. -/
def normalizeKey (s : String) : String :=
  pyUpper (pyStrip s)

/-- The four-way window test applied to each candidate record inside the
lookup loops of `lookup_callsign`, `lookup_prefix`, `is_invalid_operation`
and `lookup_zone_exception` (lookuplib.py lines 149-173 and the three
copies of the same loop). The branch structure mirrors the if/elif chain:
start only, end only, both, neither. All comparisons are strict. -/
def matchRecord (r : CsRecord) (timestamp : Int) : Bool :=
  match r.startDate, r.endDate with
  | some s, none => decide (s < timestamp)
  | none, some e => decide (e > timestamp)
  | some s, some e => decide (s < timestamp) && decide (e > timestamp)
  | none, none => true

/-- The `for item in index[key]` loop body shared by the four lookup
methods: walk the id sequence in stored order and return the first record
whose window matches; a missing record id raises `KeyError`; exhausting
the sequence falls through to `raise NoResult`. -/
def scanIds (store : List (Int × CsRecord)) (ids : List Int) (timestamp : Int) :
    Except PyErr CsRecord :=
  match ids with
  | [] => .error .noResult
  | id :: rest =>
    match alistGet store id with
    | none => .error .keyError
    | some r =>
      if matchRecord r timestamp then .ok r else scanIds store rest timestamp

/-- The temporal resolver: `if key in index: for item in index[key]: ...`
followed by `raise NoResult` when the key is absent or no candidate
matched. -/
def resolve (index : List (String × List Int)) (store : List (Int × CsRecord))
    (key : String) (timestamp : Int) : Except PyErr CsRecord :=
  match alistGet index key with
  | none => .error .noResult
  | some ids => scanIds store ids timestamp

/-- The three values of the `lookuptype` constructor argument that survive
`__init__` (any other value raises `AttributeError` before an instance
exists). -/
inductive Lookuptype where
  | clublogxml
  | clublogapi
  | countryfile
  deriving DecidableEq

/-- The `LookupLib` instance state: one record store and one key index per
category. `__init__` leaves every container empty; the loaders replace the
stores of the categories their backend populates. -/
structure LookupLib where
  lookuptype : Lookuptype
  entities : List (Int × CsRecord) := []
  callsign_exceptions : List (Int × CsRecord) := []
  prefixes : List (Int × CsRecord) := []
  invalid_operations : List (Int × CsRecord) := []
  zone_exceptions : List (Int × CsRecord) := []
  callsign_exceptions_index : List (String × List Int) := []
  prefixes_index : List (String × List Int) := []
  invalid_operations_index : List (String × List Int) := []
  zone_exceptions_index : List (String × List Int) := []
  deriving DecidableEq

/-- `lookup_entity`: `entity is None` raises `LookupError`; otherwise the
entity store is consulted directly by ADIF id and a miss raises
`NoResult` (the bare `except` also turns conversion errors into
`NoResult`; with an integer argument the conversion is the identity). -/
def lookup_entity (lib : LookupLib) (entity : Option Int) : Except PyErr CsRecord :=
  match entity with
  | none => .error .lookupError
  | some e =>
    match alistGet lib.entities e with
    | some r => .ok r
    | none => .error .noResult

/-- `lookup_callsign`: normalize the callsign, dispatch the clublogapi
backend to the remote HTTPS call (modelled as an opaque-to-the-engine
function argument `remote_api`, since it is a network round trip), and
resolve locally for the clublogxml and countryfile backends. -/
def lookup_callsign (lib : LookupLib)
    (remote_api : String → Int → Except PyErr CsRecord)
    (callsign : String) (timestamp : Int) : Except PyErr CsRecord :=
  let cs := normalizeKey callsign
  if lib.lookuptype = Lookuptype.clublogapi then
    remote_api cs timestamp
  else if lib.lookuptype = Lookuptype.clublogxml ∨ lib.lookuptype = Lookuptype.countryfile then
    resolve lib.callsign_exceptions_index lib.callsign_exceptions cs timestamp
  else
    .error .noResult

/-- `lookup_prefix`: normalize, resolve over the prefix store for the two
file-based backends, `raise NoResult` otherwise. -/
def lookup_prefix (lib : LookupLib) (pfx : String) (timestamp : Int) :
    Except PyErr CsRecord :=
  let p := normalizeKey pfx
  if lib.lookuptype = Lookuptype.clublogxml ∨ lib.lookuptype = Lookuptype.countryfile then
    resolve lib.prefixes_index lib.prefixes p timestamp
  else
    .error .noResult

/-- `is_invalid_operation`: same loop over the invalid-operations store but
every matching branch returns `True`; both failure paths (backend is not
clublogxml, or no record matches) fall through to `raise NoResult`. -/
def is_invalid_operation (lib : LookupLib) (callsign : String) (timestamp : Int) :
    Except PyErr Bool :=
  let cs := normalizeKey callsign
  if lib.lookuptype = Lookuptype.clublogxml then
    match resolve lib.invalid_operations_index lib.invalid_operations cs timestamp with
    | .ok _ => .ok true
    | .error e => .error e
  else
    .error .noResult

/-- `lookup_zone_exception`: same loop over the zone-exceptions store;
each matching branch returns `record[const.CQZ]` (a `KeyError` when the
matched record has no zone field); failures fall through to
`raise NoResult`. -/
def lookup_zone_exception (lib : LookupLib) (callsign : String) (timestamp : Int) :
    Except PyErr Int :=
  let cs := normalizeKey callsign
  if lib.lookuptype = Lookuptype.clublogxml then
    match resolve lib.zone_exceptions_index lib.zone_exceptions cs timestamp with
    | .ok r =>
      match r.cqz with
      | some z => .ok z
      | none => .error .keyError
    | .error e => .error e
  else
    .error .noResult

/-- A decoded child element of an `<exception>`, `<prefix>`,
`<invalid_operation>` or `<zone_exception>` XML element: the tag together
with its already-converted text (`int(...)`, `float(...)`,
`datetime.strptime(...)` applied by the builder are modelled as the typed
payload). -/
inductive XItem where
  | call (s : String)
  | entity (s : String)
  | adif (n : Int)
  | cqz (n : Int)
  | cont (s : String)
  | long (x : Rat)
  | lat (x : Rat)
  | startT (t : Int)
  | endT (t : Int)
  | zone (n : Int)
  deriving DecidableEq

/-- A decoded child element of an `<entity>` XML element. The boolean tags
carry their raw text, which the builder compares against `"TRUE"`. -/
inductive EItem where
  | name (s : String)
  | prefixT (s : String)
  | deleted (s : String)
  | cqz (n : Int)
  | cont (s : String)
  | long (x : Rat)
  | lat (x : Rat)
  | startT (t : Int)
  | endT (t : Int)
  | whitelist (s : String)
  | wlStart (t : Int)
  | wlEnd (t : Int)
  deriving DecidableEq

/-- One iteration of the entity item loop (lookuplib.py lines 582-616):
each recognised tag assigns one record field; `long` is stored negated
(`float(item.text)*(-1)`); boolean tags store `text == "TRUE"`. -/
def applyEntityItem (acc : CsRecord) (item : EItem) : CsRecord :=
  match item with
  | .name s => { acc with country := some s }
  | .prefixT s => { acc with prefixF := some s }
  | .deleted s => { acc with deleted := some (s == "TRUE") }
  | .cqz n => { acc with cqz := some n }
  | .cont s => { acc with continent := some s }
  | .long x => { acc with longitude := some (-x) }
  | .lat x => { acc with latitude := some x }
  | .startT t => { acc with startDate := some t }
  | .endT t => { acc with endDate := some t }
  | .whitelist s => { acc with whitelist := some (s == "TRUE") }
  | .wlStart t => { acc with wlStart := some t }
  | .wlEnd t => { acc with wlEnd := some t }

/-- Key-index append (the two-armed `if call in index.keys(): ... append
... else: index[call] = [record]` pattern used by every builder). -/
def indexAppend (idx : List (String × List Int)) (key : String) (id : Int) :
    List (String × List Int) :=
  match alistGet idx key with
  | some ids => alistSet idx key (ids ++ [id])
  | none => alistSet idx key [id]

/-- One iteration of the exception item loop (lines 627-651); the prefix
loop (lines 665-692) applies the same tag-to-field mapping (its `call`
branch uses `if`/`if` instead of `if`/`elif`, with the same effect). A
`call` tag appends the element's record id to the key index under the
verbatim call string; `long` is stored negated; a `zone` tag is not
recognised by this chain and is ignored. -/
def applyExcItem (rid : Int) (acc : CsRecord × List (String × List Int))
    (item : XItem) : CsRecord × List (String × List Int) :=
  match item with
  | .call s => (acc.1, indexAppend acc.2 s rid)
  | .entity s => ({ acc.1 with country := some s }, acc.2)
  | .adif n => ({ acc.1 with adif := some n }, acc.2)
  | .cqz n => ({ acc.1 with cqz := some n }, acc.2)
  | .cont s => ({ acc.1 with continent := some s }, acc.2)
  | .long x => ({ acc.1 with longitude := some (-x) }, acc.2)
  | .lat x => ({ acc.1 with latitude := some x }, acc.2)
  | .startT t => ({ acc.1 with startDate := some t }, acc.2)
  | .endT t => ({ acc.1 with endDate := some t }, acc.2)
  | .zone _ => acc

/-- One iteration of the invalid-operation item loop (lines 704-719):
only `call`, `start` and `end` tags are recognised. -/
def applyInvItem (rid : Int) (acc : CsRecord × List (String × List Int))
    (item : XItem) : CsRecord × List (String × List Int) :=
  match item with
  | .call s => (acc.1, indexAppend acc.2 s rid)
  | .startT t => ({ acc.1 with startDate := some t }, acc.2)
  | .endT t => ({ acc.1 with endDate := some t }, acc.2)
  | _ => acc

/-- One iteration of the zone-exception item loop (lines 731-748):
`call`, `zone` (stored into the CQZ field), `start` and `end`. -/
def applyZoneItem (rid : Int) (acc : CsRecord × List (String × List Int))
    (item : XItem) : CsRecord × List (String × List Int) :=
  match item with
  | .call s => (acc.1, indexAppend acc.2 s rid)
  | .zone n => ({ acc.1 with cqz := some n }, acc.2)
  | .startT t => ({ acc.1 with startDate := some t }, acc.2)
  | .endT t => ({ acc.1 with endDate := some t }, acc.2)
  | _ => acc

/-- Process one numbered XML element: fold its child items into a fresh
record dict and the category's index. The `store[record] = entry`
assignment sits inside the child loop, so an element with no children
never reaches the store; otherwise the last assignment stores the fully
built record under `int(element.attrib["record"])`. -/
def processElement
    (applyItem : Int → CsRecord × List (String × List Int) → XItem →
      CsRecord × List (String × List Int))
    (acc : List (Int × CsRecord) × List (String × List Int))
    (el : Int × List XItem) :
    List (Int × CsRecord) × List (String × List Int) :=
  let res := el.2.foldl (applyItem el.1) (({} : CsRecord), acc.2)
  let store := if el.2.isEmpty then acc.1 else alistSet acc.1 el.1 res.1
  (store, res.2)

/-- The entity section: each entity is stored (after its child loop) under
the integer parse of its first child's text, which the model carries as
the element's first component. -/
def buildEntities (els : List (Int × List EItem)) : List (Int × CsRecord) :=
  els.foldl (fun store el => alistSet store el.1 (el.2.foldl applyEntityItem {})) []

/-- The decoded clublog XML document body: the five category sections,
each a list of elements; for entities the `Int` is `int(element[0].text)`,
for the other categories it is `int(element.attrib["record"])`. -/
structure ClublogXmlData where
  entities : List (Int × List EItem)
  exceptions : List (Int × List XItem)
  prefixes : List (Int × List XItem)
  invalid_operations : List (Int × List XItem)
  zone_exceptions : List (Int × List XItem)
  deriving DecidableEq

/-- The dictionary-of-dictionaries value returned by
`_parse_clublog_xml`. -/
structure ClublogResult where
  entities : List (Int × CsRecord)
  call_exceptions : List (Int × CsRecord)
  prefixes : List (Int × CsRecord)
  invalid_operations : List (Int × CsRecord)
  zone_exceptions : List (Int × CsRecord)
  call_exceptions_index : List (String × List Int)
  prefixes_index : List (String × List Int)
  invalid_operations_index : List (String × List Int)
  zone_exceptions_index : List (String × List Int)
  deriving DecidableEq

/-- `_parse_clublog_xml` (lines 556-766): each category section is
processed only when `len(section) > 1`; otherwise a bare `Exception`
("No ... detected in XML File") aborts the build. -/
def parse_clublog_xml (cty : ClublogXmlData) : Except PyErr ClublogResult :=
  if 1 < cty.entities.length then
    let ents := buildEntities cty.entities
    if 1 < cty.exceptions.length then
      let exc := cty.exceptions.foldl (processElement applyExcItem) ([], [])
      if 1 < cty.prefixes.length then
        let pref := cty.prefixes.foldl (processElement applyExcItem) ([], [])
        if 1 < cty.invalid_operations.length then
          let inv := cty.invalid_operations.foldl (processElement applyInvItem) ([], [])
          if 1 < cty.zone_exceptions.length then
            let zone := cty.zone_exceptions.foldl (processElement applyZoneItem) ([], [])
            .ok { entities := ents
                  call_exceptions := exc.1
                  prefixes := pref.1
                  invalid_operations := inv.1
                  zone_exceptions := zone.1
                  call_exceptions_index := exc.2
                  prefixes_index := pref.2
                  invalid_operations_index := inv.2
                  zone_exceptions_index := zone.2 }
          else .error .exception
        else .error .exception
      else .error .exception
    else .error .exception
  else .error .exception

/-- One entry of the decoded cty.plist: the typed values `_parse_country_file`
reads from `cty_list[item]`. -/
structure PlistEntry where
  country : String
  cqzone : Int
  ituzone : Int
  continent : String
  latitude : Rat
  longitude : Rat
  exactCallsign : Bool
  deriving DecidableEq

/-- The dictionary value returned by `_parse_country_file`. -/
structure CountryFileResult where
  prefixes : List (Int × CsRecord)
  exceptions : List (Int × CsRecord)
  prefixes_index : List (String × List Int)
  exceptions_index : List (String × List Int)
  deriving DecidableEq

/-- Mutable state of the `for item in cty_list` loop of
`_parse_country_file`: two stores, two indexes, two counters. -/
structure CFState where
  exceptions : List (Int × CsRecord) := []
  prefixes : List (Int × CsRecord) := []
  exceptions_index : List (String × List Int) := []
  prefixes_index : List (String × List Int) := []
  exceptions_counter : Int := 0
  prefixes_counter : Int := 0
  deriving DecidableEq

/-- Build one plist entry dict (lines 797-806). `if mapping:` is false
exactly when the decoded mapping is the empty dict, in which case the
ADIF field is skipped; with a non-empty mapping, a country name absent
from it raises `KeyError` (aborting the whole build). Longitude is stored
verbatim: line 806 has no sign inversion. -/
def cfEntry (mapping : List (String × Int)) (e : PlistEntry) :
    Except PyErr CsRecord :=
  if mapping.isEmpty then
    .ok { country := some e.country, cqz := some e.cqzone, ituz := some e.ituzone,
          continent := some e.continent, latitude := some e.latitude,
          longitude := some e.longitude }
  else
    match alistGet mapping e.country with
    | none => .error .keyError
    | some a =>
      .ok { country := some e.country, adif := some a, cqz := some e.cqzone,
            ituz := some e.ituzone, continent := some e.continent,
            latitude := some e.latitude, longitude := some e.longitude }

/-- The `for item in cty_list` loop (lines 796-821): each entry goes to
the exceptions store when flagged `ExactCallsign`, to the prefixes store
otherwise; the per-category counter supplies the record id and is then
incremented. -/
def cfProcess (mapping : List (String × Int)) :
    List (String × PlistEntry) → CFState → Except PyErr CFState
  | [], st => .ok st
  | (call, e) :: rest, st =>
    match cfEntry mapping e with
    | .error err => .error err
    | .ok entry =>
      if e.exactCallsign then
        cfProcess mapping rest
          { st with
            exceptions_index := indexAppend st.exceptions_index call st.exceptions_counter
            exceptions := alistSet st.exceptions st.exceptions_counter entry
            exceptions_counter := st.exceptions_counter + 1 }
      else
        cfProcess mapping rest
          { st with
            prefixes_index := indexAppend st.prefixes_index call st.prefixes_counter
            prefixes := alistSet st.prefixes st.prefixes_counter entry
            prefixes_counter := st.prefixes_counter + 1 }

/-- `_parse_country_file` (lines 768-835). The mapping argument models the
`country_mapping_filename` parameter together with the file's decoded JSON
content: when `_load_countryfile` finds no mapping file it passes `None`,
and `open(None, "r")` raises `TypeError` before any entry is parsed. -/
def parse_country_file (ctyList : List (String × PlistEntry))
    (country_mapping : Option (List (String × Int))) :
    Except PyErr CountryFileResult :=
  match country_mapping with
  | none => .error .typeError
  | some mapping =>
    match cfProcess mapping ctyList {} with
    | .error e => .error e
    | .ok st =>
      .ok { prefixes := st.prefixes, exceptions := st.exceptions,
            prefixes_index := st.prefixes_index,
            exceptions_index := st.exceptions_index }

/-- `LookupLib(lookuptype="clublogxml", ...)`: run the XML builder and
install its stores and indexes on a fresh instance. -/
def mkClublogXmlLib (cty : ClublogXmlData) : Except PyErr LookupLib :=
  match parse_clublog_xml cty with
  | .error e => .error e
  | .ok r =>
    .ok { lookuptype := Lookuptype.clublogxml
          entities := r.entities
          callsign_exceptions := r.call_exceptions
          prefixes := r.prefixes
          invalid_operations := r.invalid_operations
          zone_exceptions := r.zone_exceptions
          callsign_exceptions_index := r.call_exceptions_index
          prefixes_index := r.prefixes_index
          invalid_operations_index := r.invalid_operations_index
          zone_exceptions_index := r.zone_exceptions_index }

/-- `LookupLib(lookuptype="countryfile", ...)`: run the plist builder and
install the exception and prefix pairs; the entity, invalid-operation and
zone-exception containers keep their empty `__init__` value. -/
def mkCountryfileLib (ctyList : List (String × PlistEntry))
    (country_mapping : Option (List (String × Int))) : Except PyErr LookupLib :=
  match parse_country_file ctyList country_mapping with
  | .error e => .error e
  | .ok r =>
    .ok { lookuptype := Lookuptype.countryfile
          callsign_exceptions := r.exceptions
          prefixes := r.prefixes
          callsign_exceptions_index := r.exceptions_index
          prefixes_index := r.prefixes_index }

/-- `LookupLib(lookuptype="clublogapi", ...)`: no load is performed; every
container keeps its empty `__init__` value. -/
def mkClublogApiLib : LookupLib :=
  { lookuptype := Lookuptype.clublogapi }

/-- The id sequence `0, 1, ..., n-1` as integers (what sequential
counter-assigned record ids look like). -/
def seqIds (n : Nat) : List Int :=
  (List.range n).map (Nat.cast : Nat → Int)

/-- Placeholder remote API used when instantiating theorems on the two
file-based backends (the clublogapi branch never runs there). -/
def noRemote : String → Int → Except PyErr CsRecord :=
  fun _ _ => Except.error PyErr.noResult

/-- A small well-formed clublog XML dataset (two elements per category, as
the `len > 1` checks require) used to instantiate theorems. -/
def demoCty : ClublogXmlData :=
  { entities :=
      [ (291, [EItem.name "UNITED STATES OF AMERICA", EItem.deleted "FALSE",
               EItem.cqz 5, EItem.cont "NA", EItem.long 98, EItem.lat 39]),
        (230, [EItem.name "FEDERAL REPUBLIC OF GERMANY", EItem.cqz 14,
               EItem.cont "EU", EItem.long (-10), EItem.lat 51]) ]
    exceptions :=
      [ (7, [XItem.call "W1AW", XItem.adif 291, XItem.cqz 5, XItem.endT 100]),
        (9, [XItem.call "W1AW", XItem.adif 291, XItem.cqz 5]) ]
    prefixes :=
      [ (3, [XItem.call "DL", XItem.adif 230, XItem.cqz 14]),
        (4, [XItem.call "K", XItem.adif 291, XItem.cqz 5]) ]
    invalid_operations :=
      [ (0, [XItem.call "5A1A", XItem.startT 50]),
        (1, [XItem.call "X5X", XItem.endT 80]) ]
    zone_exceptions :=
      [ (0, [XItem.call "KD4XYZ", XItem.zone 5, XItem.startT 10]),
        (1, [XItem.call "VY0AA", XItem.zone 2]) ] }

/-- The clublogxml-backed facade built from `demoCty`. -/
def demoLib : LookupLib :=
  ((mkClublogXmlLib demoCty).toOption).getD { lookuptype := Lookuptype.clublogxml }

/-- Like `demoCty`, but the first exception element carries a lowercase
call string, as the builder would store it verbatim. -/
def lowercaseCty : ClublogXmlData :=
  { demoCty with
    exceptions :=
      [ (0, [XItem.call "dl1xyz", XItem.adif 230]),
        (1, [XItem.call "W1AW", XItem.adif 291]) ] }

/-- A two-entry cty.plist decode: one prefix record and one
exact-callsign record. -/
def cfDemoCty : List (String × PlistEntry) :=
  [ ("K", { country := "United States", cqzone := 5, ituzone := 8,
            continent := "NA", latitude := 39, longitude := 98,
            exactCallsign := false }),
    ("W1AW", { country := "United States", cqzone := 5, ituzone := 8,
               continent := "NA", latitude := 41, longitude := 72,
               exactCallsign := true }) ]

/-- The countryfile-backed facade built from `cfDemoCty` with an empty
country mapping. -/
def cfDemoLib : LookupLib :=
  ((mkCountryfileLib cfDemoCty (some [])).toOption).getD
    { lookuptype := Lookuptype.countryfile }

/-- A single plist entry with a positive raw longitude, for checking the
stored sign. -/
def c3Entry : PlistEntry :=
  { country := "Germany", cqzone := 14, ituzone := 28, continent := "EU",
    latitude := 51, longitude := 10, exactCallsign := false }

/-- The record the countryfile builder produces for `c3Entry` with an
empty mapping. -/
def c3Rec : CsRecord :=
  ((cfEntry [] c3Entry).toOption).getD {}

/-- The parse result of the demo plist with a one-entry mapping. -/
def cfDemoRes : CountryFileResult :=
  ((parse_country_file cfDemoCty (some [("United States", 291)])).toOption).getD
    { prefixes := [], exceptions := [], prefixes_index := [], exceptions_index := [] }

/-- Reading back a key just written. -/
theorem alistGet_alistSet_self {α β : Type} [DecidableEq α]
    (l : List (α × β)) (k : α) (v : β) :
    alistGet (alistSet l k v) k = some v := by
  induction l with
  | nil => simp [alistSet, alistGet]
  | cons p rest ih =>
    obtain ⟨a, b⟩ := p
    by_cases h : a = k
    · simp [alistSet, alistGet, h]
    · simp [alistSet, alistGet, h, ih]

/-- Writing a fresh key appends it at the end of the dict. -/
theorem alistSet_eq_append {α β : Type} [DecidableEq α]
    (l : List (α × β)) (k : α) (v : β) (h : ∀ p ∈ l, p.1 ≠ k) :
    alistSet l k v = l ++ [(k, v)] := by
  induction l with
  | nil => simp [alistSet]
  | cons p rest ih =>
    obtain ⟨a, b⟩ := p
    have ha : a ≠ k := h (a, b) (List.mem_cons_self _ _)
    simp only [alistSet, if_neg ha, List.cons_append, List.cons.injEq, true_and]
    exact ih (fun q hq => h q (List.mem_cons_of_mem _ hq))

/-- A dict write introduces no key other than the written one. -/
theorem mem_map_fst_alistSet {α β : Type} [DecidableEq α]
    {l : List (α × β)} {k a : α} {v : β}
    (h : a ∈ (alistSet l k v).map Prod.fst) :
    a ∈ l.map Prod.fst ∨ a = k := by
  induction l with
  | nil =>
    simp [alistSet] at h
    exact Or.inr h
  | cons p rest ih =>
    obtain ⟨x, b⟩ := p
    by_cases hx : x = k
    · simp only [alistSet, if_pos hx, List.map_cons, List.mem_cons] at h
      rcases h with h | h
      · exact Or.inr (h.trans hx)
      · exact Or.inl (List.mem_cons_of_mem _ h)
    · simp only [alistSet, if_neg hx, List.map_cons, List.mem_cons] at h
      rcases h with h | h
      · exact Or.inl (by simp [h])
      · rcases ih h with h' | h'
        · exact Or.inl (List.mem_cons_of_mem _ h')
        · exact Or.inr h'

/-- The key index stores and serves the exact key string it was given:
appending under `k` extends precisely the sequence stored under `k`. -/
theorem indexAppend_get_self (idx : List (String × List Int)) (k : String) (id : Int) :
    alistGet (indexAppend idx k id) k = some ((alistGet idx k).getD [] ++ [id]) := by
  cases h : alistGet idx k with
  | none => simp [indexAppend, h, alistGet_alistSet_self]
  | some ids => simp [indexAppend, h, alistGet_alistSet_self]

/-- One step of the candidate scan: a consulted record is tested with
`matchRecord` and returned on success, skipped on failure. -/
theorem scanIds_cons (store : List (Int × CsRecord)) (id : Int) (ids : List Int)
    (timestamp : Int) (r : CsRecord) (h : alistGet store id = some r) :
    scanIds store (id :: ids) timestamp =
      if matchRecord r timestamp then Except.ok r else scanIds store ids timestamp := by
  simp [scanIds, h]

/-- The scan returns the first matching record, whatever follows it. -/
theorem scanIds_first (store : List (Int × CsRecord)) (timestamp : Int) :
    ∀ (pre : List Int) (id : Int) (post : List Int) (r : CsRecord),
      (∀ i ∈ pre, ∃ q, alistGet store i = some q ∧ matchRecord q timestamp = false) →
      alistGet store id = some r → matchRecord r timestamp = true →
      scanIds store (pre ++ id :: post) timestamp = Except.ok r := by
  intro pre
  induction pre with
  | nil =>
    intro id post r _ hid hm
    simp [scanIds, hid, hm]
  | cons p rest ih =>
    intro id post r hpre hid hm
    obtain ⟨q, hq, hqm⟩ := hpre p (List.mem_cons_self _ _)
    have hstep : scanIds store ((p :: rest) ++ id :: post) timestamp
        = scanIds store (rest ++ id :: post) timestamp := by
      simp [scanIds, hq, hqm]
    rw [hstep]
    exact ih id post r (fun i hi => hpre i (List.mem_cons_of_mem _ hi)) hid hm

/-- Exhausting the scan with no matching record yields `NoResult`. -/
theorem scanIds_none (store : List (Int × CsRecord)) (timestamp : Int) :
    ∀ ids : List Int,
      (∀ i ∈ ids, ∃ q, alistGet store i = some q ∧ matchRecord q timestamp = false) →
      scanIds store ids timestamp = Except.error PyErr.noResult := by
  intro ids
  induction ids with
  | nil => intro _; simp [scanIds]
  | cons p rest ih =>
    intro h
    obtain ⟨q, hq, hqm⟩ := h p (List.mem_cons_self _ _)
    have hstep : scanIds store (p :: rest) timestamp = scanIds store rest timestamp := by
      simp [scanIds, hq, hqm]
    rw [hstep]
    exact ih (fun i hi => h i (List.mem_cons_of_mem _ hi))

/-- Counter-assigned ids, one further. -/
theorem seqIds_succ (n : Nat) : seqIds (n + 1) = seqIds n ++ [(n : Int)] := by
  simp [seqIds, List.range_succ]

/-- The next counter value is never among the ids already assigned. -/
theorem fresh_counter_not_mem (store : List (Int × CsRecord)) (n : Nat)
    (h : store.map Prod.fst = seqIds n) : ∀ p ∈ store, p.1 ≠ (n : Int) := by
  intro p hp heq
  have hmem : p.1 ∈ store.map Prod.fst := List.mem_map_of_mem _ hp
  rw [h] at hmem
  simp only [seqIds] at hmem
  obtain ⟨i, hi, hie⟩ := List.mem_map.mp hmem
  have hin : i < n := List.mem_range.mp hi
  have hfin : (i : Int) = (n : Int) := hie.trans heq
  omega

/-- Loop invariant of `_parse_country_file`: with each counter equal to
its store's size and the store keyed `0..n-1` in insertion order,
processing any further entries preserves both properties. -/
theorem cfProcess_ids (mapping : List (String × Int)) :
    ∀ (l : List (String × PlistEntry)) (st st' : CFState),
      cfProcess mapping l st = Except.ok st' →
      st.exceptions_counter = (st.exceptions.length : Int) →
      st.exceptions.map Prod.fst = seqIds st.exceptions.length →
      st.prefixes_counter = (st.prefixes.length : Int) →
      st.prefixes.map Prod.fst = seqIds st.prefixes.length →
      st'.exceptions.map Prod.fst = seqIds st'.exceptions.length ∧
        st'.prefixes.map Prod.fst = seqIds st'.prefixes.length := by
  intro l
  induction l with
  | nil =>
    intro st st' h h1 h2 h3 h4
    simp only [cfProcess] at h
    cases h
    exact ⟨h2, h4⟩
  | cons p rest ih =>
    intro st st' h h1 h2 h3 h4
    obtain ⟨call, e⟩ := p
    simp only [cfProcess] at h
    split at h
    next err heq1 => exact Except.noConfusion h
    next entry heq1 =>
      split at h
      next hex =>
        -- exact-callsign entry: appended to the exceptions store
        have happ : alistSet st.exceptions st.exceptions_counter entry
            = st.exceptions ++ [(st.exceptions_counter, entry)] := by
          apply alistSet_eq_append
          intro q hq
          rw [h1]
          exact fresh_counter_not_mem st.exceptions st.exceptions.length h2 q hq
        refine ih _ st' h ?_ ?_ h3 h4
        · show st.exceptions_counter + 1 = _
          rw [happ, h1]
          simp only [List.length_append, List.length_cons, List.length_nil]
          push_cast
          ring
        · show (alistSet st.exceptions st.exceptions_counter entry).map Prod.fst = _
          rw [happ]
          simp only [List.map_append, List.map_cons, List.map_nil,
            List.length_append, List.length_cons, List.length_nil]
          rw [h2, h1, seqIds_succ]
      next hex =>
        -- prefix entry: appended to the prefixes store
        have happ : alistSet st.prefixes st.prefixes_counter entry
            = st.prefixes ++ [(st.prefixes_counter, entry)] := by
          apply alistSet_eq_append
          intro q hq
          rw [h3]
          exact fresh_counter_not_mem st.prefixes st.prefixes.length h4 q hq
        refine ih _ st' h h1 h2 ?_ ?_
        · show st.prefixes_counter + 1 = _
          rw [happ, h3]
          simp only [List.length_append, List.length_cons, List.length_nil]
          push_cast
          ring
        · show (alistSet st.prefixes st.prefixes_counter entry).map Prod.fst = _
          rw [happ]
          simp only [List.map_append, List.map_cons, List.map_nil,
            List.length_append, List.length_cons, List.length_nil]
          rw [h4, h3, seqIds_succ]

/-- Processing one XML element adds at most the element's own record
attribute to the store's key set. -/
theorem processElement_fst
    (applyItem : Int → CsRecord × List (String × List Int) → XItem →
      CsRecord × List (String × List Int))
    (acc : List (Int × CsRecord) × List (String × List Int))
    (el : Int × List XItem) (a : Int)
    (h : a ∈ ((processElement applyItem acc el).1.map Prod.fst)) :
    a ∈ acc.1.map Prod.fst ∨ a = el.1 := by
  simp only [processElement] at h
  split at h
  · exact Or.inl h
  · exact mem_map_fst_alistSet h

/-- Every record id in a built category store is the record attribute of
one of the section's elements. -/
theorem foldl_processElement_fst
    (applyItem : Int → CsRecord × List (String × List Int) → XItem →
      CsRecord × List (String × List Int)) :
    ∀ (els : List (Int × List XItem))
      (acc : List (Int × CsRecord) × List (String × List Int)) (a : Int),
      a ∈ ((els.foldl (processElement applyItem) acc).1.map Prod.fst) →
      a ∈ acc.1.map Prod.fst ∨ a ∈ els.map Prod.fst := by
  intro els
  induction els with
  | nil => intro acc a h; exact Or.inl h
  | cons el rest ih =>
    intro acc a h
    rw [List.foldl_cons] at h
    rcases ih (processElement applyItem acc el) a h with h' | h'
    · rcases processElement_fst applyItem acc el a h' with h'' | h''
      · exact Or.inl h''
      · exact Or.inr (by simp [h''])
    · refine Or.inr ?_
      simp only [List.map_cons, List.mem_cons]
      exact Or.inr h'

/-- C1: for every record reachable via a key's index sequence, the
temporal resolver (whose candidate test `matchRecord` is shared by
`lookup_callsign`, `lookup_prefix`, `is_invalid_operation` and
`lookup_zone_exception`) tests each consulted record with strict
comparisons in all three bounded cases: with only `valid_from` set it
matches iff `valid_from < timestamp`; with only `valid_until` set it
matches iff `timestamp < valid_until`; with both set it matches iff
`valid_from < timestamp` and `timestamp < valid_until`; a timestamp equal
to either present bound never matches. -/
theorem C1_strict_window_matching :
    (∀ (store : List (Int × CsRecord)) (id : Int) (ids : List Int)
       (timestamp : Int) (r : CsRecord),
       alistGet store id = some r →
       scanIds store (id :: ids) timestamp =
         (if matchRecord r timestamp then Except.ok r
          else scanIds store ids timestamp))
  ∧ (∀ (r : CsRecord) (timestamp s : Int),
       r.startDate = some s → r.endDate = none →
       (matchRecord r timestamp = true ↔ s < timestamp))
  ∧ (∀ (r : CsRecord) (timestamp e : Int),
       r.startDate = none → r.endDate = some e →
       (matchRecord r timestamp = true ↔ timestamp < e))
  ∧ (∀ (r : CsRecord) (timestamp s e : Int),
       r.startDate = some s → r.endDate = some e →
       (matchRecord r timestamp = true ↔ (s < timestamp ∧ timestamp < e)))
  ∧ (∀ (r : CsRecord) (s : Int), r.startDate = some s → matchRecord r s = false)
  ∧ (∀ (r : CsRecord) (e : Int), r.endDate = some e → matchRecord r e = false) := by
  refine ⟨scanIds_cons, ?_, ?_, ?_, ?_, ?_⟩
  · intro r ts s hs he
    simp [matchRecord, hs, he]
  · intro r ts e hs he
    simp [matchRecord, hs, he]
  · intro r ts s e hs he
    simp [matchRecord, hs, he]
  · intro r s hs
    cases he : r.endDate with
    | none => simp [matchRecord, hs, he]
    | some e => simp [matchRecord, hs, he]
  · intro r e he
    cases hs : r.startDate with
    | none => simp [matchRecord, hs, he]
    | some s => simp [matchRecord, hs, he]

/-- C1 witness: the strict window test evaluated on concrete records,
including both boundary instants. -/
theorem C1_strict_window_matching_witness :
    (matchRecord { startDate := some 3 } 5 = true)
  ∧ (matchRecord { endDate := some 7 } 5 = true)
  ∧ (matchRecord { startDate := some 3, endDate := some 7 } 3 = false)
  ∧ (matchRecord { startDate := some 3, endDate := some 7 } 7 = false) := by
  refine ⟨?_, ?_, ?_, ?_⟩
  · exact (C1_strict_window_matching.2.1 { startDate := some 3 } 5 3 rfl rfl).mpr
      (by decide)
  · exact (C1_strict_window_matching.2.2.1 { endDate := some 7 } 5 7 rfl rfl).mpr
      (by decide)
  · exact C1_strict_window_matching.2.2.2.2.1
      { startDate := some 3, endDate := some 7 } 3 rfl
  · exact C1_strict_window_matching.2.2.2.2.2
      { startDate := some 3, endDate := some 7 } 7 rfl

/-- C2: resolution returns the first record, in stored (build) order,
whose window contains the timestamp — whatever records follow it — and a
record with neither bound matches unconditionally, so when reached it is
returned immediately without examining later records. -/
theorem C2_first_match_policy :
    (∀ (index : List (String × List Int)) (store : List (Int × CsRecord))
       (key : String) (timestamp : Int) (pre post : List Int) (id : Int)
       (r : CsRecord),
       alistGet index key = some (pre ++ id :: post) →
       (∀ i ∈ pre, ∃ q, alistGet store i = some q ∧
          matchRecord q timestamp = false) →
       alistGet store id = some r →
       matchRecord r timestamp = true →
       resolve index store key timestamp = Except.ok r)
  ∧ (∀ (r : CsRecord) (timestamp : Int),
       r.startDate = none → r.endDate = none →
       matchRecord r timestamp = true) := by
  constructor
  · intro index store key ts pre post id r hidx hpre hid hm
    have hres : resolve index store key ts = scanIds store (pre ++ id :: post) ts := by
      simp [resolve, hidx]
    rw [hres]
    exact scanIds_first store ts pre id post r hpre hid hm
  · intro r ts h1 h2
    simp [matchRecord, h1, h2]

/-- C2 witness: with ids [7, 9] under one key, record 7 bounded by
`valid_until = 100` and record 9 unbounded, resolving at time 200 skips
record 7 and returns record 9 even though nothing follows it. -/
theorem C2_first_match_policy_witness :
    resolve [("W1AW", [7, 9])]
      [(7, { adif := some 291, endDate := some 100 }), (9, { adif := some 291 })]
      "W1AW" 200 = Except.ok { adif := some 291 } := by
  refine C2_first_match_policy.1 _ _ "W1AW" 200 [7] [] 9
    { adif := some 291 } (by decide) ?_ (by decide) (by decide)
  intro i hi
  have hi7 : i = 7 := by simpa using hi
  subst hi7
  exact ⟨{ adif := some 291, endDate := some 100 }, by decide, by decide⟩

/-- C6: resolution fails with `NoResult` both when the key is absent from
the index and when the key is present but no candidate record's window
contains the timestamp; both failure paths produce the identical error
value, so the caller cannot distinguish them; `lookup_callsign` on the
clublogxml backend is exactly this resolution applied to the normalized
callsign. -/
theorem C6_nomatch_indistinguishable :
    (∀ (index : List (String × List Int)) (store : List (Int × CsRecord))
       (key : String) (timestamp : Int),
       alistGet index key = none →
       resolve index store key timestamp = Except.error PyErr.noResult)
  ∧ (∀ (index : List (String × List Int)) (store : List (Int × CsRecord))
       (key : String) (timestamp : Int) (ids : List Int),
       alistGet index key = some ids →
       (∀ i ∈ ids, ∃ q, alistGet store i = some q ∧
          matchRecord q timestamp = false) →
       resolve index store key timestamp = Except.error PyErr.noResult)
  ∧ (∀ (lib : LookupLib) (remote_api : String → Int → Except PyErr CsRecord)
       (callsign : String) (timestamp : Int),
       lib.lookuptype = Lookuptype.clublogxml →
       lookup_callsign lib remote_api callsign timestamp =
         resolve lib.callsign_exceptions_index lib.callsign_exceptions
           (normalizeKey callsign) timestamp) := by
  refine ⟨?_, ?_, ?_⟩
  · intro index store key ts h
    simp [resolve, h]
  · intro index store key ts ids h hall
    have hres : resolve index store key ts = scanIds store ids ts := by
      simp [resolve, h]
    rw [hres]
    exact scanIds_none store ts ids hall
  · intro lib remote_api cs ts ht
    simp [lookup_callsign, ht]

/-- C6 witness: an unknown key and a known key whose only record no
longer matches both yield the same `NoResult` value. -/
theorem C6_nomatch_indistinguishable_witness :
    (resolve [("W1AW", [0])] [(0, { endDate := some 100 })] "XX9XX" 50
       = Except.error PyErr.noResult)
  ∧ (resolve [("W1AW", [0])] [(0, { endDate := some 100 })] "W1AW" 200
       = Except.error PyErr.noResult) := by
  constructor
  · exact C6_nomatch_indistinguishable.1 _ _ "XX9XX" 50 (by decide)
  · refine C6_nomatch_indistinguishable.2.1 _ _ "W1AW" 200 [0] (by decide) ?_
    intro i hi
    have hi0 : i = 0 := by simpa using hi
    subst hi0
    exact ⟨{ endDate := some 100 }, by decide, by decide⟩

/-- C9: `is_invalid_operation` never returns `False`: every matching
branch returns `True` and every non-matching path raises `NoResult` (or
propagates the scan's error), so a caller can never observe a boolean
`False` result. -/
theorem C9_is_invalid_operation_never_false :
    ∀ (lib : LookupLib) (callsign : String) (timestamp : Int),
      is_invalid_operation lib callsign timestamp ≠ Except.ok false := by
  intro lib cs ts h
  simp only [is_invalid_operation] at h
  by_cases ht : lib.lookuptype = Lookuptype.clublogxml
  · rw [if_pos ht] at h
    cases hr : resolve lib.invalid_operations_index lib.invalid_operations
        (normalizeKey cs) ts with
    | ok r => rw [hr] at h; simp at h
    | error e => rw [hr] at h; simp at h
  · rw [if_neg ht] at h
    exact Except.noConfusion h

/-- C9 witness. -/
theorem C9_is_invalid_operation_never_false_witness :
    is_invalid_operation demoLib "5A1A" 60 ≠ Except.ok false :=
  C9_is_invalid_operation_never_false demoLib "5A1A" 60

/-- C10: the clublogxml builder treats a category with exactly one
decoded record as a fatal build error just like an empty category: the
build succeeds precisely when every category section holds more than one
element (the guard is `len > 1`, not `len >= 1`), and a one-element
exception section aborts the build with the bare `Exception`. -/
theorem C10_single_record_category_fatal :
    (∀ cty : ClublogXmlData,
       (parse_clublog_xml cty).isOk = true ↔
         (1 < cty.entities.length ∧ 1 < cty.exceptions.length ∧
          1 < cty.prefixes.length ∧ 1 < cty.invalid_operations.length ∧
          1 < cty.zone_exceptions.length))
  ∧ (∀ cty : ClublogXmlData, cty.exceptions.length = 1 →
       parse_clublog_xml cty = Except.error PyErr.exception) := by
  constructor
  · intro cty
    simp only [parse_clublog_xml]
    split_ifs <;> simp [Except.isOk, Except.toBool] <;> omega
  · intro cty hone
    have hnot : ¬ (1 < cty.exceptions.length) := by omega
    simp only [parse_clublog_xml]
    split_ifs <;> simp_all

/-- C10 witness: a dataset whose exception section holds exactly one
record fails the build. -/
theorem C10_single_record_category_fatal_witness :
    parse_clublog_xml { demoCty with exceptions := [(7, [XItem.call "W1AW"])] }
      = Except.error PyErr.exception :=
  C10_single_record_category_fatal.2 _ (by decide)

/-- C3 counterexample: the countryfile builder stores the raw longitude
without sign inversion: a plist entry with raw longitude 10 is stored
with longitude 10, not the negation -10 that the claim requires of both
backends. -/
theorem C3_counterexample_longitude_not_negated :
    ((parse_country_file [("DL", c3Entry)] (some [])).map
        (fun res => (alistGet res.prefixes 0).map (fun r => r.longitude)) =
      Except.ok (some (some (10 : Rat))))
  ∧ c3Entry.longitude = 10
  ∧ ((10 : Rat) ≠ -10) := by
  refine ⟨rfl, rfl, by norm_num⟩

/-- C3 amended: in the clublogxml builder every decoded numeric, boolean
and coordinate field is stored equal to the source value except
longitude, which is stored negated; the countryfile builder stores every
field — longitude included — equal to the source value, so the sign
inversion is applied only by the clublogxml backend. -/
theorem C3_amended_roundtrip_fields :
    (∀ (rid : Int) (acc : CsRecord × List (String × List Int)) (x : Rat),
       ((applyExcItem rid acc (XItem.long x)).1.longitude = some (-x))
       ∧ ((applyExcItem rid acc (XItem.lat x)).1.latitude = some x))
  ∧ (∀ (rid : Int) (acc : CsRecord × List (String × List Int)) (n : Int),
       ((applyExcItem rid acc (XItem.adif n)).1.adif = some n)
       ∧ ((applyExcItem rid acc (XItem.cqz n)).1.cqz = some n))
  ∧ (∀ (acc : CsRecord) (x : Rat),
       ((applyEntityItem acc (EItem.long x)).longitude = some (-x))
       ∧ ((applyEntityItem acc (EItem.lat x)).latitude = some x))
  ∧ (∀ (acc : CsRecord) (s : String),
       (applyEntityItem acc (EItem.deleted s)).deleted = some (s == "TRUE"))
  ∧ (∀ (mapping : List (String × Int)) (e : PlistEntry) (rec : CsRecord),
       cfEntry mapping e = Except.ok rec →
       rec.longitude = some e.longitude ∧ rec.latitude = some e.latitude
       ∧ rec.cqz = some e.cqzone ∧ rec.ituz = some e.ituzone
       ∧ rec.country = some e.country ∧ rec.continent = some e.continent) := by
  refine ⟨?_, ?_, ?_, ?_, ?_⟩
  · intro rid acc x; exact ⟨rfl, rfl⟩
  · intro rid acc n; exact ⟨rfl, rfl⟩
  · intro acc x; exact ⟨rfl, rfl⟩
  · intro acc s; rfl
  · intro mapping e rec h
    simp only [cfEntry] at h
    split at h
    · cases h
      exact ⟨rfl, rfl, rfl, rfl, rfl, rfl⟩
    · split at h
      · exact Except.noConfusion h
      · cases h
        exact ⟨rfl, rfl, rfl, rfl, rfl, rfl⟩

/-- C3 amended witness: the record built from `c3Entry` with no mapping
table reproduces the raw longitude and zone values. -/
theorem C3_amended_roundtrip_fields_witness :
    c3Rec.longitude = some c3Entry.longitude ∧ c3Rec.cqz = some c3Entry.cqzone := by
  have h := C3_amended_roundtrip_fields.2.2.2.2 [] c3Entry c3Rec rfl
  exact ⟨h.1, h.2.2.1⟩

/-- C4 counterexample: the clublogxml builder keys records by the file's
`record` attribute, not by a sequential counter: a two-element exception
section with attributes 7 and 9 yields store ids [7, 9] rather than the
[0, 1] the claim requires. -/
theorem C4_counterexample_clublog_ids_from_file :
    ((parse_clublog_xml demoCty).map
        (fun res => res.call_exceptions.map Prod.fst) = Except.ok [7, 9])
  ∧ (([7, 9] : List Int) ≠ seqIds 2) := by
  exact ⟨rfl, by decide⟩

/-- C4 amended: the countryfile builder assigns every record the next
sequential record id within its category, starting at zero, in input
order (its stores are keyed exactly `0..n-1` in build order); the
clublogxml builder instead stores each record under the id carried by the
element's `record` attribute in the source file, which need not be
sequential. -/
theorem C4_amended_record_ids :
    (∀ (ctyList : List (String × PlistEntry)) (mapping : List (String × Int))
       (res : CountryFileResult),
       parse_country_file ctyList (some mapping) = Except.ok res →
       res.exceptions.map Prod.fst = seqIds res.exceptions.length
       ∧ res.prefixes.map Prod.fst = seqIds res.prefixes.length)
  ∧ (∀ (cty : ClublogXmlData) (res : ClublogResult),
       parse_clublog_xml cty = Except.ok res →
       ∀ a ∈ res.call_exceptions.map Prod.fst,
         a ∈ cty.exceptions.map Prod.fst) := by
  constructor
  · intro ctyList mapping res h
    simp only [parse_country_file] at h
    split at h
    · exact Except.noConfusion h
    · next st heq =>
      cases h
      exact cfProcess_ids mapping ctyList {} st heq rfl rfl rfl rfl
  · intro cty res h a ha
    simp only [parse_clublog_xml] at h
    split_ifs at h
    cases h
    rcases foldl_processElement_fst applyExcItem cty.exceptions ([], []) a ha
      with h' | h'
    · simp at h'
    · exact h'

/-- C4 amended witness: the demo plist build stores exception ids [0]
and prefix ids [0] — sequential from zero per category. -/
theorem C4_amended_record_ids_witness :
    cfDemoRes.exceptions.map Prod.fst = seqIds cfDemoRes.exceptions.length
    ∧ cfDemoRes.prefixes.map Prod.fst = seqIds cfDemoRes.prefixes.length :=
  C4_amended_record_ids.1 cfDemoCty [("United States", 291)] cfDemoRes rfl

/-- C5 counterexample: builders insert key strings verbatim, without
uppercasing or stripping: a key stored as "dl1xyz" sits in the built
index with an always-matching record, yet looking up the very same
string "dl1xyz" fails with `NoResult`, because the lookup normalizes its
argument to "DL1XYZ" before consulting the index. -/
theorem C5_counterexample_build_keys_not_normalized :
    ((mkClublogXmlLib lowercaseCty).map
        (fun lib =>
          (alistGet lib.callsign_exceptions_index "dl1xyz",
           lookup_callsign lib noRemote "dl1xyz" 42)) =
      Except.ok (some [0], Except.error PyErr.noResult))
  ∧ normalizeKey "dl1xyz" = "DL1XYZ" := by
  exact ⟨rfl, rfl⟩

/-- C5 amended: keys are uppercased and stripped before lookup only; the
build inserts key strings verbatim and the index performs no
normalization of its own. Hence any two lookup strings normalizing to
the same form give identical results, a lookup resolves against exactly
the normalized form of its argument (so variants of a key reach its
records precisely when the stored key is already in normalized form),
and the index serves back exactly the verbatim key it was given. -/
theorem C5_amended_lookup_normalization :
    (∀ (lib : LookupLib) (remote_api : String → Int → Except PyErr CsRecord)
       (v k : String) (ts : Int),
       normalizeKey v = normalizeKey k →
       lookup_callsign lib remote_api v ts = lookup_callsign lib remote_api k ts)
  ∧ (∀ (lib : LookupLib) (remote_api : String → Int → Except PyErr CsRecord)
       (v k : String) (ts : Int),
       lib.lookuptype = Lookuptype.clublogxml →
       normalizeKey v = k →
       lookup_callsign lib remote_api v ts =
         resolve lib.callsign_exceptions_index lib.callsign_exceptions k ts)
  ∧ (∀ (idx : List (String × List Int)) (k : String) (id : Int),
       alistGet (indexAppend idx k id) k =
         some ((alistGet idx k).getD [] ++ [id])) := by
  refine ⟨?_, ?_, ?_⟩
  · intro lib remote_api v k ts h
    simp only [lookup_callsign, h]
  · intro lib remote_api v k ts ht h
    simp [lookup_callsign, ht, h]
  · exact indexAppend_get_self

/-- C5 amended witness: a spaced lowercase variant of "W1AW" resolves
against the normalized key. -/
theorem C5_amended_lookup_normalization_witness :
    lookup_callsign demoLib noRemote " w1aw " 50 =
      resolve demoLib.callsign_exceptions_index demoLib.callsign_exceptions
        "W1AW" 50 :=
  C5_amended_lookup_normalization.2.1 demoLib noRemote " w1aw " "W1AW" 50
    rfl (by decide)

/-- C7 counterexample: on the countryfile backend — which does not
support entity lookups — calling `lookup_entity` with the default
argument `None` raises `LookupError`, not the `NoResult` the claim
requires for every input. -/
theorem C7_counterexample_lookup_entity_none :
    ((mkCountryfileLib cfDemoCty (some [])).map
        (fun lib => lookup_entity lib none) =
      Except.ok (Except.error PyErr.lookupError))
  ∧ PyErr.lookupError ≠ PyErr.noResult := by
  exact ⟨rfl, by decide⟩

/-- C7 amended: operations unsupported by the active backend fail with
`NoResult` for every integer entity id and every callsign string
(`lookup_entity`, `is_invalid_operation` and `lookup_zone_exception` on a
countryfile-built facade; `lookup_entity` on the clublogapi facade); the
one exception is `lookup_entity` with the (default) argument `None`,
which raises `LookupError` on every backend, because the `None` check
precedes backend dispatch. -/
theorem C7_amended_unsupported_nomatch :
    (∀ (ctyList : List (String × PlistEntry))
       (country_mapping : Option (List (String × Int))) (lib : LookupLib),
       mkCountryfileLib ctyList country_mapping = Except.ok lib →
       (∀ n : Int, lookup_entity lib (some n) = Except.error PyErr.noResult)
       ∧ (∀ (cs : String) (ts : Int),
            is_invalid_operation lib cs ts = Except.error PyErr.noResult)
       ∧ (∀ (cs : String) (ts : Int),
            lookup_zone_exception lib cs ts = Except.error PyErr.noResult))
  ∧ (∀ n : Int, lookup_entity mkClublogApiLib (some n) = Except.error PyErr.noResult)
  ∧ (∀ (lib : LookupLib) (entity : Option Int), entity = none →
       lookup_entity lib entity = Except.error PyErr.lookupError) := by
  refine ⟨?_, ?_, ?_⟩
  · intro ctyList cm lib h
    have hprops : lib.lookuptype = Lookuptype.countryfile ∧ lib.entities = [] := by
      simp only [mkCountryfileLib] at h
      split at h
      · exact Except.noConfusion h
      · next r heq =>
        cases h
        exact ⟨rfl, rfl⟩
    obtain ⟨ht, he⟩ := hprops
    refine ⟨?_, ?_, ?_⟩
    · intro n
      simp [lookup_entity, he, alistGet]
    · intro cs ts
      simp [is_invalid_operation, ht]
    · intro cs ts
      simp [lookup_zone_exception, ht]
  · intro n
    simp [lookup_entity, mkClublogApiLib, alistGet]
  · intro lib entity h
    subst h
    simp [lookup_entity]

/-- C7 amended witness. -/
theorem C7_amended_unsupported_nomatch_witness :
    is_invalid_operation cfDemoLib "5A1A" 0 = Except.error PyErr.noResult :=
  ((C7_amended_unsupported_nomatch.1 cfDemoCty (some []) cfDemoLib rfl).2.1)
    "5A1A" 0

/-- C8: with no country-mapping table available, `_load_countryfile`
passes `country_mapping_filename = None` and `_parse_country_file` then
executes `open(None, "r")`, which raises `TypeError` and aborts the
build — the ADIF field is not gracefully omitted. The graceful omission
path the spec describes is reachable only when a mapping file exists but
decodes to the falsy empty dict, in which case the build completes with
the ADIF field absent from every record. -/
theorem C8_missing_mapping_type_error :
    (∀ ctyList : List (String × PlistEntry),
       parse_country_file ctyList none = Except.error PyErr.typeError)
  ∧ ((parse_country_file cfDemoCty (some [])).map
       (fun r => ((alistGet r.prefixes 0).map (fun rec => rec.adif),
                  (alistGet r.exceptions 0).map (fun rec => rec.adif))) =
     Except.ok (some none, some none)) := by
  constructor
  · intro l; rfl
  · rfl

end Pyhamtools
